import Mathlib

/-!
Verification of the PdsLogger tiered counting/suppression engine.

This file is a shallow embedding, in Lean 4, of the core state machine of
`pdslogger/__init__.py`: the tier stack, the per-alias message counters, the
per-tier limits with suppression notices, and the level-name display logic.

Modelling conventions, chosen to stay faithful to the Python source:

* Python `dict`s (and `defaultdict(int)`s) are modelled as association lists
  (`AList k v`) with first-match lookup and in-place update (`aset`), which
  reproduces Python's insertion-order and key-update semantics.  A
  `defaultdict(int)` read that merely inserts an explicit zero-valued key is
  modelled as a pure read (`aget … 0`): the inserted zero never changes any
  value read later, and no key-membership test in the source distinguishes an
  absent key from an explicit zero at the places involved.
* The source keeps seven parallel stacks (`_titles`, `_limits_by_name`,
  `_counters_by_name`, …) that are always pushed and popped together; they are
  modelled as a single stack of `Tier` records.  The head of the Lean list is
  the top of the stack (the Python index `[-1]`).
* Wall-clock times (`datetime.now()`) are passed in as an abstract `now : Nat`
  parameter; handlers are opaque identifiers (`Nat`); the textual rendering of
  `_logged_text` (timestamp, logger name, pid, indent) is kept symbolic in a
  `LogText` value carrying the level tag, the message and the file path, since
  no claim below depends on the assembled line.  File-path root stripping and
  the file-name based handler dedup depend on the file system and are outside
  the claims; the path is carried verbatim.
* A record "emitted" by `log`/`open`/`close` is a record handed to the
  emission stage `_logger_log`; the final severity gate of `_logger_log`
  (which compares against the logger's minimum level, with `force` elevating
  the level to `FATAL`) is `passes_min_level`.
* Python exceptions (`KeyError` for an unknown alias, `IndexError` on an
  empty stack, `ValueError` for the depth check) are modelled with `Option` /
  an explicit `PyError` marker; the source raises them before mutating any
  tier state at the places the claims touch.
* The process-global logger registry, the logger-name validation, and the
  `logging` module plumbing (real handler objects, `exception()` stack traces)
  are process-environment concerns not touched by any claim and are omitted.
-/

namespace PdsLog

/-! ## Association lists (Python dict model) -/

abbrev AList (α β : Type) := List (α × β)

/-- First-match lookup, `d[k]` / `d.get(k)`. -/
def alookup {α β : Type} [DecidableEq α] : AList α β → α → Option β
  | [], _ => none
  | (k', v) :: rest, k => if k' = k then some v else alookup rest k

/-- `d.get(k, dflt)`. -/
def aget {α β : Type} [DecidableEq α] (m : AList α β) (k : α) (dflt : β) : β :=
  (alookup m k).getD dflt

/-- `k in d`. -/
def acontains {α β : Type} [DecidableEq α] (m : AList α β) (k : α) : Bool :=
  (alookup m k).isSome

/-- `d[k] = v`: update the first entry with key `k` in place, else append. -/
def aset {α β : Type} [DecidableEq α] : AList α β → α → β → AList α β
  | [], k, v => [(k, v)]
  | (k', v') :: rest, k, v =>
      if k' = k then (k, v) :: rest else (k', v') :: aset rest k v

/-- Python `str.lower()` / `str.upper()`, embedded over the character list.
(`String.toLower` itself is position-recursive and opaque to kernel
reduction; mapping over `String.data` is the same function.) -/
def strLower (s : String) : String := ⟨s.data.map Char.toLower⟩

def strUpper (s : String) : String := ⟨s.data.map Char.toUpper⟩

/-- `d[k] += 1` on a `defaultdict(int)`. -/
def bump {α : Type} [DecidableEq α] (m : AList α Nat) (k : α) : AList α Nat :=
  aset m k (aget m k 0 + 1)

theorem alookup_aset_self {α β : Type} [DecidableEq α] (m : AList α β) (k : α) (v : β) :
    alookup (aset m k v) k = some v := by
  induction m with
  | nil => simp [aset, alookup]
  | cons p rest ih =>
      by_cases h : p.1 = k
      · simp [aset, h, alookup]
      · simp [aset, h, alookup, ih]

theorem alookup_aset_ne {α β : Type} [DecidableEq α] (m : AList α β) (k' k : α) (v : β)
    (h : k' ≠ k) : alookup (aset m k' v) k = alookup m k := by
  induction m with
  | nil => simp [aset, alookup, h]
  | cons p rest ih =>
      by_cases hp : p.1 = k'
      · simp only [aset, if_pos hp, alookup, if_neg h, if_neg (hp ▸ h)]
      · simp only [aset, if_neg hp, alookup, ih]

theorem aget_bump_self {α : Type} [DecidableEq α] (m : AList α Nat) (k : α) :
    aget (bump m k) k 0 = aget m k 0 + 1 := by
  simp [bump, aget, alookup_aset_self]

theorem aget_bump_ne {α : Type} [DecidableEq α] (m : AList α Nat) (k' k : α) (h : k' ≠ k) :
    aget (bump m k') k 0 = aget m k 0 := by
  simp [bump, aget, alookup_aset_ne m k' k _ h]

theorem alookup_eq_none_of_not_mem {α β : Type} [DecidableEq α] (m : AList α β) (k : α)
    (h : ∀ p ∈ m, p.1 ≠ k) : alookup m k = none := by
  induction m with
  | nil => rfl
  | cons p rest ih =>
      simp only [alookup, if_neg (h p (by simp))]
      exact ih fun q hq => h q (by simp [hq])

theorem mem_of_alookup_some {α β : Type} [DecidableEq α] (m : AList α β) (k : α) (v : β)
    (h : alookup m k = some v) : ∃ p ∈ m, p.1 = k := by
  induction m with
  | nil => simp [alookup] at h
  | cons p rest ih =>
      by_cases hp : p.1 = k
      · exact ⟨p, by simp, hp⟩
      · simp only [alookup, if_neg hp] at h
        obtain ⟨q, hq, hqk⟩ := ih h
        exact ⟨q, by simp [hq], hqk⟩

theorem not_mem_of_alookup_none {α β : Type} [DecidableEq α] (m : AList α β) (k : α)
    (h : alookup m k = none) : ∀ p ∈ m, p.1 ≠ k := by
  intro p hp hpk
  induction m with
  | nil => simp at hp
  | cons q rest ih =>
      by_cases hq : q.1 = k
      · simp [alookup, hq] at h
      · simp only [alookup, if_neg hq] at h
        rcases List.mem_cons.mp hp with h1 | h1
        · exact hq (h1 ▸ hpk)
        · exact ih h h1

/-- Keys not present in the updating dict keep their original binding. -/
theorem alookup_foldl_aset_of_none {α β : Type} [DecidableEq α]
    (L : AList α β) (m : AList α β) (k : α)
    (h : ∀ p ∈ L, p.1 ≠ k) :
    alookup (L.foldl (fun acc p => aset acc p.1 p.2) m) k = alookup m k := by
  induction L generalizing m with
  | nil => rfl
  | cons p rest ih =>
      simp only [List.foldl_cons]
      rw [ih _ (fun q hq => h q (by simp [hq]))]
      exact alookup_aset_ne _ _ _ _ (h p (by simp))

/-- Key-preserving rewrite of every value of a dict
(the second limits loop of `PdsLogger.open`). -/
theorem alookup_map_keyed {α β : Type} [DecidableEq α]
    (m : AList α β) (g : α → β → β) (k : α) :
    alookup (m.map fun p => (p.1, g p.1 p.2)) k = (alookup m k).map (g k) := by
  induction m with
  | nil => rfl
  | cons p rest ih =>
      by_cases hp : p.1 = k
      · simp [alookup, hp]
      · simp [alookup, hp, ih]

/-- Updating the keys of one dict with another (`d.copy()` then assignments),
when the updating dict has no repeated key, makes its entries win. -/
theorem alookup_foldl_aset_of_some {α β : Type} [DecidableEq α]
    (L : AList α β) (m : AList α β) (k : α) (v : β)
    (hnd : (L.map Prod.fst).Nodup) (h : alookup L k = some v) :
    alookup (L.foldl (fun acc p => aset acc p.1 p.2) m) k = some v := by
  induction L generalizing m with
  | nil => simp [alookup] at h
  | cons p rest ih =>
      simp only [List.map_cons, List.nodup_cons] at hnd
      simp only [List.foldl_cons]
      by_cases hp : p.1 = k
      · simp only [alookup, if_pos hp] at h
        have hv : p.2 = v := Option.some.inj h
        have hrest : ∀ q ∈ rest, q.1 ≠ k := by
          intro q hq hqk
          exact hnd.1 (hp ▸ hqk ▸ (List.mem_map.mpr ⟨q, hq, rfl⟩))
        rw [alookup_foldl_aset_of_none rest _ k hrest, hv]
        exact hp ▸ alookup_aset_self m p.1 v
      · simp only [alookup, if_neg hp] at h
        exact ih _ hnd.2 h

/-! ## Severity constants and default tables (module header of the source) -/

def FATAL : Nat := 50
def ERROR : Nat := 40
def WARNING : Nat := 30
def INFO : Nat := 20
def DEBUG : Nat := 10
def HIDDEN : Nat := 1

/-- `_DEFAULT_LEVEL_BY_NAME`. -/
def defaultLevelByName : AList String Nat :=
  [("fatal", 50), ("critical", 50), ("error", 40), ("warn", 30), ("warning", 30),
   ("info", 20), ("debug", 10), ("hidden", 1),
   ("normal", 20), ("ds_store", 10), ("dot_", 40), ("invisible", 30),
   ("exception", 50), ("header", 20)]

/-- `_DEFAULT_LEVEL_NAMES`. -/
def defaultLevelNames : AList Nat String :=
  [(50, "FATAL"), (40, "ERROR"), (30, "WARNING"), (20, "INFO"), (10, "DEBUG"), (1, "HIDDEN")]

/-! ## State -/

/-- One frame of the hierarchy: the source's parallel stacks
`_titles[i]`, `_start_times[i]`, `_limits_by_name[i]`, `_counters_by_name[i]`,
`_suppressed_by_name[i]`, `_counters_by_level[i]`, `_suppressed_by_level[i]`,
`_local_handlers[i]`, which are always pushed and popped together. -/
structure Tier where
  title : String
  startTime : Nat
  limits : AList String Int
  counts : AList String Nat
  suppressed : AList String Nat
  countsByLevel : AList Nat Nat
  suppressedByLevel : AList Nat Nat
  localHandlers : List Nat
deriving DecidableEq

def emptyTier : Tier :=
  { title := "", startTime := 0, limits := [], counts := [], suppressed := [],
    countsByLevel := [], suppressedByLevel := [], localHandlers := [] }

/-- The mutable state of a `PdsLogger`.  `tiers` is the stack, head = top
(Python index `[-1]`).  `handlers` is `_handlers`, the flat list across all
tiers, as opaque identifiers. -/
structure PdsLogger where
  levelByName : AList String Nat
  levelNames : AList Nat String
  tiers : List Tier
  handlers : List Nat
  minLevel : Nat
  maxdepth : Nat
  timestamps : Bool
  blanklines : Bool
deriving DecidableEq

/-- `_get_depth`: `len(self._titles) - 1` as a Python int. -/
def getDepth (s : PdsLogger) : Int := (s.tiers.length : Int) - 1

/-! ## Emitted records

A `Rec` is one record handed to the emission stage `_logger_log`.  The text is
kept symbolic: `LogText.formatted tag message filepath` stands for the string
built by `_logged_text(tag, message, filepath)` (whose timestamp, name, pid and
indent decorations no claim depends on), and `LogText.raw` for a pre-formatted
string passed to `_logger_log` directly (`blankline`). -/

inductive LevelTag where
  | name (s : String)
  | num (n : Nat)
deriving DecidableEq

inductive LogText where
  | formatted (tag : LevelTag) (message : String) (filepath : String)
  | raw (text : String)
deriving DecidableEq

structure Rec where
  level : Nat
  text : LogText
  force : Bool
deriving DecidableEq

/-- The severity gate of `_logger_log`: `level = FATAL if force else level`,
then compare with `_min_level`.  (The no-handler fallback prints to the
console; either way the record is only produced when this gate passes.) -/
def passes_min_level (minLevel level : Nat) (force : Bool) : Bool :=
  decide ((if force then FATAL else level) ≥ minLevel)

/-! ## Constructor -/

/-- The `default_prefix` normalisation of `PdsLogger.__init__`. -/
def normalizeLogname (defaultPrefix logname : String) : String :=
  if defaultPrefix ≠ "" then
    let p : String := ⟨(defaultPrefix.data.reverse.dropWhile (· = '.')).reverse ++ ['.']⟩
    if p.data.isPrefixOf logname.data then logname else p ++ logname
  else logname

/-- Merge of user levels into `_DEFAULT_LEVEL_BY_NAME`
(`self._level_by_name`). -/
def mkLevelByName (levels : AList String Nat) : AList String Nat :=
  levels.foldl (fun m p => aset m p.1 p.2) defaultLevelByName

/-- Reverse map `self._level_names`: start from `_DEFAULT_LEVEL_NAMES`, add a
name for each level value not already present. -/
def mkLevelNames (levelByName : AList String Nat) : AList Nat String :=
  levelByName.foldl
    (fun m p => if acontains m p.2 then m else aset m p.2 p.1) defaultLevelNames

/-- `PdsLogger.__init__`.  `_DEFAULT_LIMITS_BY_NAME` is empty, and the loop
that reads `limits_by_name.get(level_name, -1)` discards its result, so the
root limits map is exactly the `limits` argument.  Logger-name validation and
the process-global registry are omitted (no claim touches them); `level` is
taken numeric (`set_level` with a string resolves through the same tables). -/
def mkLogger (logname defaultPrefix : String) (levels : AList String Nat)
    (limits : AList String Int) (timestamps blanklines : Bool)
    (maxdepth level now : Nat) : PdsLogger :=
  let logname := normalizeLogname defaultPrefix logname
  let levelByName := mkLevelByName levels
  let root : Tier :=
    { emptyTier with
      title := logname,
      startTime := now,
      limits := limits.foldl (fun m p => aset m p.1 p.2) [] }
  { levelByName := levelByName,
    levelNames := mkLevelNames levelByName,
    tiers := [root],
    handlers := [],
    minLevel := level,
    maxdepth := maxdepth,
    timestamps := timestamps,
    blanklines := blanklines }

/-! ## The counting and suppression engine: `PdsLogger.log` -/

/-- The argument of `log`: a level name (string) or a numeric level. -/
inductive LevelArg where
  | name (s : String)
  | num (n : Nat)

/-- The severity-bucket key of `log`:
`level if level in counters else max(10 * (level // 10), HIDDEN)`. -/
def levelKey (countersByLevel : AList Nat Nat) (level : Nat) : Nat :=
  if acontains countersByLevel level then level else max (10 * (level / 10)) HIDDEN

/-- The text of the one-time suppression notice
(`'Additional <type_> messages suppressed'`). -/
def noticeText (levelNames : AList Nat String) (levelName : String) (level : Nat) : String :=
  let levelId := (alookup levelNames level).getD (toString level)
  let type_ := if strUpper levelName = levelId then levelId else levelName ++ " " ++ levelId
  "Additional " ++ type_ ++ " messages suppressed"

/-- Body of `PdsLogger.log` after the level has been resolved to
`(level_name, level)`.  Returns `none` on the `IndexError` an empty tier stack
would raise, otherwise the updated state and the records handed to
`_logger_log`. -/
def logCore (s : PdsLogger) (levelName : String) (level : Nat)
    (message filepath : String) (force : Bool) : Option (PdsLogger × List Rec) :=
  match s.tiers with
  | [] => none
  | t :: rest =>
    -- Count the messages at this level
    let counts := if levelName = "" then t.counts else bump t.counts levelName
    let countsByLevel := bump t.countsByLevel (levelKey t.countsByLevel level)
    -- Log message if necessary
    let limit := aget t.limits levelName (-1)
    if limit < 0 ∨ (((aget counts levelName 0 : Nat) : Int) ≤ limit) ∨ force = true then
      some ({ s with tiers :=
                { t with counts := counts, countsByLevel := countsByLevel } :: rest },
            [{ level := level,
               text := .formatted
                 (if levelName = "" then .num level else .name levelName)
                 message filepath,
               force := force }])
    else
      -- Otherwise, count suppressed messages
      let suppressed := bump t.suppressed levelName
      let suppressedByLevel := bump t.suppressedByLevel level
      -- Note first suppression
      let recs : List Rec :=
        if aget suppressed levelName 0 = 1 ∧ limit ≠ 0 then
          [{ level := level,
             text := .formatted (.name levelName)
               (noticeText s.levelNames levelName level) "",
             force := false }]
        else []
      some ({ s with tiers :=
                { t with counts := counts, countsByLevel := countsByLevel,
                         suppressed := suppressed,
                         suppressedByLevel := suppressedByLevel } :: rest },
            recs)

/-- `PdsLogger.log`.  A string level is lower-cased and resolved through
`_level_by_name` (`none` models the `KeyError` on an unknown alias); a numeric
level gets the name `_level_names` gives it, or `''`. -/
def log (s : PdsLogger) (arg : LevelArg) (message filepath : String) (force : Bool) :
    Option (PdsLogger × List Rec) :=
  match arg with
  | .name str =>
    match alookup s.levelByName (strLower str) with
    | none => none
    | some level => logCore s (strLower str) level message filepath force
  | .num level =>
    logCore s ((alookup s.levelNames level).getD "") level message filepath force

/-! ## `PdsLogger.open` -/

/-- Exceptions raised by the modelled methods, in source order:
`KeyError` (unknown alias), `ValueError` (depth limit), `IndexError`
(operation on an empty tier stack). -/
inductive PyError where
  | keyError
  | valueError
  | indexError
deriving DecidableEq

/-- The shrink applied by `open` to every inherited limit not overridden by
the call: a non-negative limit is reduced by the parent's consumed count,
floored at 0; anything else (including -1) is kept. -/
def shrinkLimit (L : AList String Int) (parentCounts : AList String Nat)
    (name : String) (limit : Int) : Int :=
  if acontains L name = false ∧ limit ≥ 0 then
    max 0 (limit - ((aget parentCounts name 0 : Nat) : Int))
  else limit

/-- `PdsLogger.open(title, filepath, limits=L, handler=H, force=force)`.

Returns the records handed to `_logger_log`, the state of the object when the
call returns or raises, and the exception raised if any.  The source emits the
HEADER record and checks the depth before mutating anything, so on either
failure the state is returned unchanged.  (`open` on an empty stack raises
`IndexError` from `self._limits_by_name[-1]` after appending to three of the
parallel lists; that torn state is unreachable for the claims and is returned
unchanged here.)  Handler dedup by `baseFilename` is a file-system concern and
only identity dedup is modelled. -/
def openTier (s : PdsLogger) (title filepath : String) (limits : AList String Int)
    (handler : List Nat) (force : Bool) (now : Nat) :
    List Rec × PdsLogger × Option PyError :=
  let title := if filepath ≠ "" then title ++ ": " ++ filepath else title
  match alookup s.levelByName "header" with
  | none => ([], s, some .keyError)
  | some level =>
    -- Write header message at current level
    let recs : List Rec :=
      [{ level := level, text := .formatted (.name "HEADER") title "", force := force }]
    -- Increment the hierarchy depth
    if getDepth s ≥ (s.maxdepth : Int) then
      (recs, s, some .valueError)
    else
      match s.tiers with
      | [] => (recs, s, some .indexError)
      | t :: rest =>
        -- Add each new handler if not already present
        let hs := handler.foldl
          (fun (acc : List Nat × List Nat) h =>
            if acc.1.contains h then acc else (acc.1 ++ [h], acc.2 ++ [h]))
          (s.handlers, [])
        -- Set the level-specific limits
        let merged := limits.foldl (fun m p => aset m p.1 p.2) t.limits
        -- Unless overridden, each tier is bound by the limits of the tier above
        let newLimits := merged.map fun p => (p.1, shrinkLimit limits t.counts p.1 p.2)
        let newTier : Tier :=
          { title := title, startTime := now, limits := newLimits,
            counts := [], suppressed := [], countsByLevel := [],
            suppressedByLevel := [], localHandlers := hs.2 }
        (recs, { s with tiers := newTier :: t :: rest, handlers := hs.1 }, none)

/-! ## `PdsLogger.summarize` and `PdsLogger.close` -/

/-- The counting loop of `summarize` over `_counters_by_level[-1].items()`:
`if level >= FATAL … elif level >= ERROR … elif level >= WARNING …`,
and `tests` counts everything. -/
def summarizeCounts (m : AList Nat Nat) : Nat × Nat × Nat × Nat :=
  m.foldl
    (fun acc e =>
      if e.1 ≥ FATAL then (acc.1 + e.2, acc.2.1, acc.2.2.1, acc.2.2.2 + e.2)
      else if e.1 ≥ ERROR then (acc.1, acc.2.1 + e.2, acc.2.2.1, acc.2.2.2 + e.2)
      else if e.1 ≥ WARNING then (acc.1, acc.2.1, acc.2.2.1 + e.2, acc.2.2.2 + e.2)
      else (acc.1, acc.2.1, acc.2.2.1, acc.2.2.2 + e.2))
    (0, 0, 0, 0)

/-- `PdsLogger.summarize`: the 4-tuple for the current top tier. -/
def summarize (s : PdsLogger) : Option (Nat × Nat × Nat × Nat) :=
  match s.tiers with
  | [] => none
  | t :: _ => some (summarizeCounts t.countsByLevel)

/-- Insertion sort (Python `list.sort()`; the keys compared are distinct at
every use site, so stability is immaterial). -/
def insertLe {α : Type} (le : α → α → Bool) (a : α) : List α → List α
  | [] => [a]
  | b :: rest => if le a b then a :: b :: rest else b :: insertLe le a rest

def sortLe {α : Type} (le : α → α → Bool) : List α → List α
  | [] => []
  | a :: rest => insertLe le a (sortLe le rest)

/-- Lexicographic order on the `(count, name)` tuples sorted by `close`. -/
def natStrLe (a b : Nat × String) : Bool :=
  decide (a.1 < b.1) || (decide (a.1 = b.1) && decide (a.2 ≤ b.2))

/-- The per-alias summary notes of `close`.  NOTE: the source's comprehension
`[(level, name) for name, level in self._counters_by_name[-1].items()]` binds
the stored *count* as `level`, so each note is emitted at
`max(count, header)`; this faithful to the source. -/
def tierNotes (header : Nat) (t : Tier) : List (Nat × String) :=
  let tuples := sortLe natStrLe (t.counts.map fun p => (p.2, p.1))
  tuples.filterMap fun q =>
    let count := aget t.counts q.2 0
    let suppressed := aget t.suppressed q.2 0
    if count + suppressed = 0 then none
    else
      let capname := strUpper q.2
      let note :=
        if suppressed = 0 then
          toString count ++ " " ++ capname ++ " message" ++
            (if count = 1 then "" else "s")
        else
          let unsuppressed := count - suppressed
          toString unsuppressed ++ " " ++ capname ++ " message" ++
            (if unsuppressed = 1 then "" else "s") ++
            " reported of " ++ toString count ++ " total"
      some (max q.1 header, note)

/-- One transfer loop of `close`: iterate over the items of a child counter
dict, adding each count into the parent counter dict and the child's matching
suppressed value into the parent suppressed dict. -/
def mergePair {α : Type} [DecidableEq α] (src : AList α Nat) (items : List (α × Nat))
    (cnt sup : AList α Nat) : AList α Nat × AList α Nat :=
  items.foldl
    (fun acc e =>
      (aset acc.1 e.1 (aget acc.1 e.1 0 + e.2),
       aset acc.2 e.1 (aget acc.2 e.1 0 + aget src e.1 0)))
    (cnt, sup)

/-- The "Transfer the totals to the hierarchy depth above" block of `close`. -/
def transferTier (child parent : Tier) : Tier :=
  let byName := mergePair child.suppressed child.counts parent.counts parent.suppressed
  let byLevel := mergePair child.suppressedByLevel child.countsByLevel
    parent.countsByLevel parent.suppressedByLevel
  { parent with
    counts := byName.1,
    suppressed := byName.2,
    countsByLevel := byLevel.1,
    suppressedByLevel := byLevel.2 }

/-- `PdsLogger.close`.  Returns the updated state, the records handed to
`_logger_log` (summary lines, then the optional blank line) and the returned
4-tuple.  `none` models the `IndexError` on an empty stack (`self._titles[-1]`)
or the `KeyError` on a missing `header` alias, both raised before any
mutation.  Note the source pops the top tier even at depth 0: `rest` may be
empty, leaving an empty stack. -/
def close (s : PdsLogger) (now : Nat) : Option (PdsLogger × List Rec × (Nat × Nat × Nat × Nat)) :=
  match s.tiers with
  | [] => none
  | t :: rest =>
    match alookup s.levelByName "header" with
    | none => none
    | some header =>
      -- Summary messages; each item is (level, text)
      let messages : List (Nat × String) :=
        (header, "Completed: " ++ t.title) ::
          ((if s.timestamps then
              [(header, "Elapsed time = " ++ toString (now - t.startTime))]
            else []) ++ tierNotes header t)
      -- Transfer the totals to the hierarchy depth above
      let rest' : List Tier :=
        match rest with
        | [] => []
        | p :: rs => transferTier t p :: rs
      -- Determine values to return (summarize reads the closed tier's own map)
      let ret := summarizeCounts t.countsByLevel
      -- Close the handlers at this level (Finder-color decoration is
      -- best-effort platform decoration, outside the model)
      let handlers' := s.handlers.filter fun h => !(t.localHandlers.contains h)
      -- Log the summary at the higher depth, then the optional blank line
      let recs : List Rec :=
        (messages.map fun m =>
          { level := m.1, text := .formatted (.name "summary") m.2 "", force := false }) ++
        (if s.blanklines then
          [{ level := header, text := .raw "", force := false }]
         else [])
      some ({ s with tiers := rest', handlers := handlers' }, recs, ret)

/-- `PdsLogger.set_limit`: `self._limits_by_name[-1][name.lower()] = limit`.
`none` models the `IndexError` on an empty stack. -/
def set_limit (s : PdsLogger) (name : String) (limit : Int) : Option PdsLogger :=
  match s.tiers with
  | [] => none
  | t :: rest =>
    some { s with tiers := { t with limits := aset t.limits (strLower name) limit } :: rest }

/-! ## `_logged_level`: display name for a severity -/

/-- `PdsLogger._logged_level`.  A string is upper-cased; a numeric level uses
`self._level_names.get(level, '')` when that gives a non-empty name, and
otherwise falls back to `"<name>+<i>"` built from the module-level
`_DEFAULT_LEVEL_NAMES` table: the positive differences `level - lev`, sorted,
smallest first.  `none` models the `IndexError` when no default level lies
strictly below `level`. -/
def diffLe (a b : Int × String) : Bool :=
  decide (a.1 < b.1) || (decide (a.1 = b.1) && decide (a.2 ≤ b.2))

def logged_level (levelNames : AList Nat String) : LevelTag → Option String
  | .name str => some (strUpper str)
  | .num level =>
    let levelName := (alookup levelNames level).getD ""
    if levelName ≠ "" then some (strUpper levelName)
    else
      let diffs := defaultLevelNames.map fun p => (((level : Nat) : Int) - ((p.1 : Nat) : Int), p.2)
      let diffs := diffs.filter fun d => decide (d.1 > 0)
      match sortLe diffLe diffs with
      | [] => none
      | d :: _ => some (d.2 ++ "+" ++ toString d.1)

/-! ## Operation sequences (for the stack-size invariant) -/

/-- One public operation on the logger. -/
inductive Op where
  | openOp (title : String) (limits : AList String Int)
  | closeOp
  | logOp (arg : LevelArg) (msg : String) (force : Bool)

/-- Run one operation.  A raised exception leaves the object in the state it
had at the raise point, which each model function returns. -/
def runOp (s : PdsLogger) : Op → PdsLogger
  | .openOp title limits => (openTier s title "" limits [] false 0).2.1
  | .closeOp =>
    match close s 0 with
    | none => s
    | some (s', _, _) => s'
  | .logOp arg msg f =>
    match log s arg msg "" f with
    | none => s
    | some (s', _) => s'

def runOps (s : PdsLogger) (ops : List Op) : PdsLogger := ops.foldl runOp s

/-- `close` is only invoked while a tier is open above the root. -/
def safeOps (s : PdsLogger) : List Op → Bool
  | [] => true
  | op :: ops =>
    (match op with
     | .closeOp => decide (2 ≤ s.tiers.length)
     | _ => true) && safeOps (runOp s op) ops

/-! ## Specification of a run of `log` calls on one alias (claim C2) -/

/-- The limit-stage decision of `log` for a call whose alias had been counted
`c` times before the call: the record is handed to the emission path iff the
limit is negative, the post-increment count `c + 1` is within the limit, or
the call is forced. -/
def emitsAt (N : Int) (c : Nat) (f : Bool) : Prop :=
  N < 0 ∨ ((c : Int) + 1 ≤ N) ∨ f = true

instance (N : Int) (c : Nat) (f : Bool) : Decidable (emitsAt N c f) := by
  unfold emitsAt; infer_instance

/-- Number of suppressed calls in a run of `log` calls on one alias with
limit `N`, starting from prior count `c`. -/
def nSupp (N : Int) (c : Nat) : List Bool → Nat
  | [] => 0
  | f :: fs => (if emitsAt N c f then 0 else 1) + nSupp N (c + 1) fs

/-- The records one `log(alias, msg, force=f)` call hands to `_logger_log`,
as a function of the alias's limit `N`, its prior count `c` and its prior
suppressed count `sup` at the top tier: the message record when the limit
stage passes; else, on the very first suppression and only when the limit is
not exactly 0, the one-time suppression notice; else nothing. -/
def callOut (levelNames : AList Nat String) (nm : String) (lvl : Nat) (msg : String)
    (N : Int) (c sup : Nat) (f : Bool) : List Rec :=
  if emitsAt N c f then
    [{ level := lvl, text := .formatted (.name nm) msg "", force := f }]
  else if sup = 0 ∧ N ≠ 0 then
    [{ level := lvl, text := .formatted (.name nm) (noticeText levelNames nm lvl) "",
       force := false }]
  else []

/-- A run of `log` calls with one alias and message, one per entry of
`forces`, collecting each call's emitted records. -/
def logMany (arg : LevelArg) (msg : String) : PdsLogger → List Bool →
    Option (PdsLogger × List (List Rec))
  | s, [] => some (s, [])
  | s, f :: fs =>
    match log s arg msg "" f with
    | none => none
    | some (s1, recs) =>
      match logMany arg msg s1 fs with
      | none => none
      | some (s2, outs) => some (s2, recs :: outs)

/-- One `log` call on a known, non-empty alias: the full transition.  The
alias counter rises by one, the suppressed counter rises exactly when the
limit stage rejects the call, the limits map is untouched, and the records
handed to `_logger_log` are `callOut`. -/
theorem log_step (s : PdsLogger) (t : Tier) (rest : List Tier) (nm : String) (lvl : Nat)
    (msg : String) (f : Bool)
    (hs : s.tiers = t :: rest) (hnm : nm ≠ "") (hlow : strLower nm = nm)
    (hlvl : alookup s.levelByName nm = some lvl) :
    ∃ t', log s (.name nm) msg "" f =
        some ({ s with tiers := t' :: rest },
               callOut s.levelNames nm lvl msg (aget t.limits nm (-1))
                 (aget t.counts nm 0) (aget t.suppressed nm 0) f) ∧
      t'.limits = t.limits ∧
      aget t'.counts nm 0 = aget t.counts nm 0 + 1 ∧
      aget t'.suppressed nm 0 = aget t.suppressed nm 0 +
        (if emitsAt (aget t.limits nm (-1)) (aget t.counts nm 0) f then 0 else 1) := by
  have hbump : aget (bump t.counts nm) nm 0 = aget t.counts nm 0 + 1 :=
    aget_bump_self t.counts nm
  have hcond : (aget t.limits nm (-1) < 0 ∨
      (((aget (bump t.counts nm) nm 0 : Nat) : Int) ≤ aget t.limits nm (-1)) ∨ f = true) ↔
      emitsAt (aget t.limits nm (-1)) (aget t.counts nm 0) f := by
    rw [hbump]
    unfold emitsAt
    push_cast
    tauto
  simp only [log, hlow, hlvl, logCore, hs, if_neg hnm]
  by_cases he : emitsAt (aget t.limits nm (-1)) (aget t.counts nm 0) f
  · refine ⟨{ t with
        counts := bump t.counts nm,
        countsByLevel := bump t.countsByLevel (levelKey t.countsByLevel lvl) },
      ?_, rfl, hbump, ?_⟩
    · rw [if_pos (hcond.mpr he)]
      unfold callOut
      rw [if_pos he]
    · rw [if_pos he]
      rfl
  · have hsupb : aget (bump t.suppressed nm) nm 0 = aget t.suppressed nm 0 + 1 :=
      aget_bump_self t.suppressed nm
    refine ⟨{ t with
        counts := bump t.counts nm,
        countsByLevel := bump t.countsByLevel (levelKey t.countsByLevel lvl),
        suppressed := bump t.suppressed nm,
        suppressedByLevel := bump t.suppressedByLevel lvl },
      ?_, rfl, hbump, ?_⟩
    · rw [if_neg (fun hc => he (hcond.mp hc))]
      unfold callOut
      rw [if_neg he]
      by_cases hz : aget t.suppressed nm 0 = 0 ∧ aget t.limits nm (-1) ≠ 0
      · rw [if_pos hz, if_pos (show aget (bump t.suppressed nm) nm 0 = 1 ∧
          aget t.limits nm (-1) ≠ 0 from ⟨by omega, hz.2⟩)]
      · rw [if_neg hz, if_neg (show
          ¬(aget (bump t.suppressed nm) nm 0 = 1 ∧ aget t.limits nm (-1) ≠ 0) from
          fun hc => hz ⟨by omega, hc.2⟩)]
    · rw [if_neg he]
      exact hsupb

/-- A run of `log` calls on one known alias, fully characterised: the alias
counter ends at `c + len`, the suppressed counter at `sup + nSupp`, and the
`i`-th call hands to `_logger_log` exactly `callOut` of the prior count
`c + i` and prior suppressed count. -/
theorem logMany_spec (nm : String) (lvl : Nat) (msg : String) (N : Int) :
    ∀ (forces : List Bool) (s : PdsLogger) (t : Tier) (rest : List Tier) (c sup : Nat),
    s.tiers = t :: rest → nm ≠ "" → strLower nm = nm →
    alookup s.levelByName nm = some lvl →
    aget t.limits nm (-1) = N → aget t.counts nm 0 = c → aget t.suppressed nm 0 = sup →
    ∃ s' t' outs,
      logMany (.name nm) msg s forces = some (s', outs) ∧
      s'.tiers = t' :: rest ∧ s'.levelNames = s.levelNames ∧
      aget t'.counts nm 0 = c + forces.length ∧
      aget t'.suppressed nm 0 = sup + nSupp N c forces ∧
      outs = (List.range forces.length).map (fun i =>
        callOut s.levelNames nm lvl msg N (c + i) (sup + nSupp N c (forces.take i))
          (forces.getD i false)) := by
  intro forces
  induction forces with
  | nil =>
      intro s t rest c sup hs hnm hlow hlvl hlim hc hsup
      exact ⟨s, t, [], rfl, hs, rfl, by simpa using hc, by simpa [nSupp] using hsup, by simp⟩
  | cons f fs ih =>
      intro s t rest c sup hs hnm hlow hlvl hlim hc hsup
      obtain ⟨t1, hlog, hlimits, hcounts, hsupp⟩ :=
        log_step s t rest nm lvl msg f hs hnm hlow hlvl
      rw [hlim, hc, hsup] at hlog hsupp
      rw [hc] at hcounts
      obtain ⟨s', t', outs, hrun, hs', hnames, hc', hsup', houts⟩ :=
        ih { s with tiers := t1 :: rest } t1 rest (c + 1)
          (sup + if emitsAt N c f then 0 else 1) rfl hnm hlow hlvl
          (hlimits ▸ hlim) hcounts hsupp
      refine ⟨s', t', callOut s.levelNames nm lvl msg N c sup f :: outs, ?_, hs', hnames,
        ?_, ?_, ?_⟩
      · simp only [logMany, hlog, hrun]
      · simpa [Nat.add_assoc, Nat.add_comm 1 fs.length] using hc'
      · rw [hsup']
        show _ = sup + nSupp N c (f :: fs)
        simp only [nSupp]
        omega
      · simp only [List.length_cons]
        rw [List.range_succ_eq_map, List.map_cons, List.map_map, houts]
        congr 1
        apply List.map_congr_left
        intro i hi
        show callOut s.levelNames nm lvl msg N (c + 1 + i)
            ((sup + if emitsAt N c f then 0 else 1) + nSupp N (c + 1) (fs.take i))
            (fs.getD i false) =
          callOut s.levelNames nm lvl msg N (c + (i + 1))
            (sup + nSupp N c ((f :: fs).take (i + 1))) ((f :: fs).getD (i + 1) false)
        have h1 : c + 1 + i = c + (i + 1) := by omega
        have h2 : (sup + if emitsAt N c f then 0 else 1) + nSupp N (c + 1) (fs.take i) =
            sup + nSupp N c ((f :: fs).take (i + 1)) := by
          simp only [List.take_succ_cons, nSupp]
          omega
        rw [h1, h2]
        rfl

/-! ## Pointwise characterisation of the `close` transfer and of `summarize` -/

theorem mergePair_fst {α : Type} [DecidableEq α] (src : AList α Nat) :
    ∀ (items : List (α × Nat)) (cnt sup : AList α Nat),
    (items.map Prod.fst).Nodup → ∀ k,
    aget (mergePair src items cnt sup).1 k 0 = aget cnt k 0 + aget items k 0 := by
  intro items
  induction items with
  | nil =>
      intro cnt sup _ k
      simp [mergePair, aget, alookup]
  | cons e rest ih =>
      intro cnt sup hnd k
      simp only [List.map_cons, List.nodup_cons] at hnd
      show aget (mergePair src rest
        (aset cnt e.1 (aget cnt e.1 0 + e.2))
        (aset sup e.1 (aget sup e.1 0 + aget src e.1 0))).1 k 0 = _
      rw [ih _ _ hnd.2 k]
      by_cases hk : e.1 = k
      · subst hk
        have hrest : alookup rest e.1 = none :=
          alookup_eq_none_of_not_mem rest e.1
            (fun q hq hqk => hnd.1 (hqk ▸ List.mem_map.mpr ⟨q, hq, rfl⟩))
        simp only [aget, alookup_aset_self, alookup, if_pos rfl, hrest]
        simp
      · simp only [aget, alookup_aset_ne cnt e.1 k _ hk, alookup, if_neg hk]

theorem mergePair_snd {α : Type} [DecidableEq α] (src : AList α Nat) :
    ∀ (items : List (α × Nat)) (cnt sup : AList α Nat),
    (items.map Prod.fst).Nodup → ∀ k,
    aget (mergePair src items cnt sup).2 k 0 =
      aget sup k 0 + (if acontains items k then aget src k 0 else 0) := by
  intro items
  induction items with
  | nil =>
      intro cnt sup _ k
      simp [mergePair, acontains, alookup]
  | cons e rest ih =>
      intro cnt sup hnd k
      simp only [List.map_cons, List.nodup_cons] at hnd
      show aget (mergePair src rest
        (aset cnt e.1 (aget cnt e.1 0 + e.2))
        (aset sup e.1 (aget sup e.1 0 + aget src e.1 0))).2 k 0 = _
      rw [ih _ _ hnd.2 k]
      by_cases hk : e.1 = k
      · subst hk
        have hrest : alookup rest e.1 = none :=
          alookup_eq_none_of_not_mem rest e.1
            (fun q hq hqk => hnd.1 (hqk ▸ List.mem_map.mpr ⟨q, hq, rfl⟩))
        simp only [aget, alookup_aset_self, acontains, hrest, alookup, if_pos rfl]
        simp
      · simp only [aget, alookup_aset_ne sup e.1 k _ hk, acontains, alookup, if_neg hk]

/-- Sum of the counts of the entries whose level satisfies `p`. -/
def weightSum (m : AList Nat Nat) (p : Nat → Bool) : Nat :=
  (m.map fun e => if p e.1 then e.2 else 0).sum

theorem summarizeCounts_foldl (m : AList Nat Nat) :
    ∀ acc : Nat × Nat × Nat × Nat,
    m.foldl
      (fun acc e =>
        if e.1 ≥ FATAL then (acc.1 + e.2, acc.2.1, acc.2.2.1, acc.2.2.2 + e.2)
        else if e.1 ≥ ERROR then (acc.1, acc.2.1 + e.2, acc.2.2.1, acc.2.2.2 + e.2)
        else if e.1 ≥ WARNING then (acc.1, acc.2.1, acc.2.2.1 + e.2, acc.2.2.2 + e.2)
        else (acc.1, acc.2.1, acc.2.2.1, acc.2.2.2 + e.2))
      acc =
    (acc.1 + weightSum m (fun l => decide (l ≥ FATAL)),
     acc.2.1 + weightSum m (fun l => decide (l ≥ ERROR) && decide (l < FATAL)),
     acc.2.2.1 + weightSum m (fun l => decide (l ≥ WARNING) && decide (l < ERROR)),
     acc.2.2.2 + weightSum m (fun _ => true)) := by
  induction m with
  | nil => intro acc; simp [weightSum]
  | cons e rest ih =>
      intro acc
      rw [List.foldl_cons, ih]
      simp only [weightSum, List.map_cons, List.sum_cons, FATAL, ERROR, WARNING,
        ge_iff_le, Prod.mk.injEq, decide_eq_true_eq, Bool.and_eq_true]
      by_cases h1 : 50 ≤ e.1
      · simp [h1, show ¬(e.1 < 50) by omega]
        omega
      · by_cases h2 : 40 ≤ e.1
        · simp [h1, h2, show e.1 < 50 by omega]
          omega
        · by_cases h3 : 30 ≤ e.1
          · simp [h1, h2, h3, show e.1 < 40 by omega]
            omega
          · simp [h1, h2, h3]
            omega

/-- The four buckets of `summarize`: severities `≥ FATAL`, `[ERROR, FATAL)`,
`[WARNING, ERROR)`, and everything. -/
theorem summarizeCounts_buckets (m : AList Nat Nat) :
    summarizeCounts m =
      (weightSum m (fun l => decide (l ≥ FATAL)),
       weightSum m (fun l => decide (l ≥ ERROR) && decide (l < FATAL)),
       weightSum m (fun l => decide (l ≥ WARNING) && decide (l < ERROR)),
       weightSum m (fun _ => true)) := by
  have h := summarizeCounts_foldl m (0, 0, 0, 0)
  simpa [summarizeCounts] using h

/-! ## Constructor and length facts -/

/-- The `_level_names` merge loop only adds bindings for level values that do
not already have one, so every default binding survives. -/
theorem alookup_mkLevelNames (lbn : AList String Nat) (k : Nat) (v : String)
    (h : alookup defaultLevelNames k = some v) :
    alookup (mkLevelNames lbn) k = some v := by
  unfold mkLevelNames
  suffices hgen : ∀ (L : AList String Nat) (base : AList Nat String),
      alookup base k = some v →
      alookup (L.foldl (fun m p => if acontains m p.2 then m else aset m p.2 p.1) base) k
        = some v from hgen lbn defaultLevelNames h
  intro L
  induction L with
  | nil => intro base hb; exact hb
  | cons p rest ih =>
      intro base hb
      simp only [List.foldl_cons]
      by_cases hc : acontains base p.2
      · rw [if_pos hc]; exact ih base hb
      · rw [if_neg hc]
        apply ih
        have hne : p.2 ≠ k := by
          intro hk
          rw [hk] at hc
          exact hc (by simp [acontains, hb])
        rw [alookup_aset_ne base p.2 k p.1 hne]
        exact hb

theorem logCore_shape (s : PdsLogger) (t : Tier) (rest : List Tier) (n : String) (l : Nat)
    (m fp : String) (f : Bool) (hs : s.tiers = t :: rest) :
    ∃ t' recs', logCore s n l m fp f = some ({ s with tiers := t' :: rest }, recs') := by
  simp only [logCore, hs]
  split <;> split
  all_goals exact ⟨_, _, rfl⟩

theorem logCore_length (s : PdsLogger) (n : String) (l : Nat) (m fp : String) (f : Bool)
    (s' : PdsLogger) (recs : List Rec) (h : logCore s n l m fp f = some (s', recs)) :
    s'.tiers.length = s.tiers.length := by
  cases hs : s.tiers with
  | nil =>
      simp only [logCore, hs] at h
      exact Option.noConfusion h
  | cons t rest =>
      obtain ⟨t', recs', hsh⟩ := logCore_shape s t rest n l m fp f hs
      rw [hsh] at h
      simp only [Option.some.injEq, Prod.mk.injEq] at h
      obtain ⟨h1, -⟩ := h
      rw [← h1]
      simp [hs]

theorem log_length (s : PdsLogger) (arg : LevelArg) (m fp : String) (f : Bool)
    (s' : PdsLogger) (recs : List Rec) (h : log s arg m fp f = some (s', recs)) :
    s'.tiers.length = s.tiers.length := by
  cases arg with
  | name str =>
      simp only [log] at h
      cases hl : alookup s.levelByName (strLower str) with
      | none => rw [hl] at h; simp at h
      | some lvl =>
          rw [hl] at h
          exact logCore_length s _ lvl m fp f s' recs h
  | num lvl =>
      simp only [log] at h
      exact logCore_length s _ lvl m fp f s' recs h

theorem close_length (s : PdsLogger) (now : Nat) (s' : PdsLogger) (recs : List Rec)
    (ret : Nat × Nat × Nat × Nat) (h : close s now = some (s', recs, ret)) :
    s'.tiers.length + 1 = s.tiers.length := by
  unfold close at h
  cases hs : s.tiers with
  | nil => rw [hs] at h; simp at h
  | cons t rest =>
      rw [hs] at h
      cases hl : alookup s.levelByName "header" with
      | none => rw [hl] at h; simp at h
      | some header =>
          rw [hl] at h
          simp only [Option.some.injEq, Prod.mk.injEq] at h
          obtain ⟨h1, -⟩ := h
          rw [← h1]
          cases rest <;> simp

theorem openTier_length (s : PdsLogger) (title fp : String) (L : AList String Int)
    (H : List Nat) (f : Bool) (now : Nat) :
    s.tiers.length ≤ ((openTier s title fp L H f now).2.1).tiers.length := by
  unfold openTier
  cases hl : alookup s.levelByName "header" with
  | none => simp
  | some lvl =>
      simp only
      split
      · simp
      · cases hs : s.tiers with
        | nil => simp
        | cons t rest => simp [hs]

/-! ## The display-name fallback (claim C9) -/

/-- The claim's "nearest lower known standard severity": the largest entry of
`_DEFAULT_LEVEL_NAMES` strictly below `S` (junk below 2). -/
def nearestLowerDefault (S : Nat) : Nat :=
  if S > 50 then 50 else if S > 40 then 40 else if S > 30 then 30
  else if S > 20 then 20 else if S > 10 then 10 else 1

/-- Sorting a list whose first components are already strictly increasing is
the identity. -/
theorem sortLe_of_chain :
    ∀ l : List (Int × String), l.Pairwise (fun a b => a.1 < b.1) → sortLe diffLe l = l := by
  intro l
  induction l with
  | nil => intro _; rfl
  | cons a rest ih =>
      intro h
      obtain ⟨hhead, hrest⟩ := List.pairwise_cons.mp h
      show insertLe diffLe a (sortLe diffLe rest) = a :: rest
      rw [ih hrest]
      cases rest with
      | nil => rfl
      | cons b rs =>
          show insertLe diffLe a (b :: rs) = a :: b :: rs
          unfold insertLe
          rw [if_pos (by simp [diffLe, hhead b (by simp)])]

/-- For a severity with no (non-empty) name in the logger's `_level_names`,
the fallback renders `"<nearest-lower-default-name>+<delta>"` with the delta
to the largest default severity strictly below. -/
theorem logged_level_fallback (levelNames : AList Nat String) (S : Nat)
    (hname : (alookup levelNames S).getD "" = "") (hS : 1 < S) :
    logged_level levelNames (.num S) =
      some ((alookup defaultLevelNames (nearestLowerDefault S)).getD "" ++ "+" ++
        toString ((S : Int) - ((nearestLowerDefault S : Nat) : Int))) := by
  simp only [logged_level, hname, ne_eq, not_true_eq_false, if_false,
    defaultLevelNames, List.map_cons, List.map_nil, List.filter_cons, List.filter_nil,
    decide_eq_true_eq]
  by_cases h50 : 50 < S
  · rw [if_pos (by push_cast; omega), if_pos (by push_cast; omega),
      if_pos (by push_cast; omega), if_pos (by push_cast; omega),
      if_pos (by push_cast; omega), if_pos (by push_cast; omega),
      sortLe_of_chain _ (by simp [List.pairwise_cons])]
    simp only [nearestLowerDefault, if_pos h50]
    simp [alookup]
  · by_cases h40 : 40 < S
    · rw [if_neg (by push_cast; omega), if_pos (by push_cast; omega),
        if_pos (by push_cast; omega), if_pos (by push_cast; omega),
        if_pos (by push_cast; omega), if_pos (by push_cast; omega),
        sortLe_of_chain _ (by simp [List.pairwise_cons])]
      simp only [nearestLowerDefault, if_neg h50, if_pos h40]
      simp [alookup]
    · by_cases h30 : 30 < S
      · rw [if_neg (by push_cast; omega), if_neg (by push_cast; omega),
          if_pos (by push_cast; omega), if_pos (by push_cast; omega),
          if_pos (by push_cast; omega), if_pos (by push_cast; omega),
          sortLe_of_chain _ (by simp [List.pairwise_cons])]
        simp only [nearestLowerDefault, if_neg h50, if_neg h40, if_pos h30]
        simp [alookup]
      · by_cases h20 : 20 < S
        · rw [if_neg (by push_cast; omega), if_neg (by push_cast; omega),
            if_neg (by push_cast; omega), if_pos (by push_cast; omega),
            if_pos (by push_cast; omega), if_pos (by push_cast; omega),
            sortLe_of_chain _ (by simp [List.pairwise_cons])]
          simp only [nearestLowerDefault, if_neg h50, if_neg h40, if_neg h30, if_pos h20]
          simp [alookup]
        · by_cases h10 : 10 < S
          · rw [if_neg (by push_cast; omega), if_neg (by push_cast; omega),
              if_neg (by push_cast; omega), if_neg (by push_cast; omega),
              if_pos (by push_cast; omega), if_pos (by push_cast; omega),
              sortLe_of_chain _ (by simp [List.pairwise_cons])]
            simp only [nearestLowerDefault, if_neg h50, if_neg h40, if_neg h30,
              if_neg h20, if_pos h10]
            simp [alookup]
          · rw [if_neg (by push_cast; omega), if_neg (by push_cast; omega),
              if_neg (by push_cast; omega), if_neg (by push_cast; omega),
              if_neg (by push_cast; omega), if_pos (by push_cast; omega),
              sortLe_of_chain _ (by simp [List.pairwise_cons])]
            simp only [nearestLowerDefault, if_neg h50, if_neg h40, if_neg h30,
              if_neg h20, if_neg h10]
            simp [alookup]

/-! ## Claim C1 -/

/-- C1: for every alias name `A` known to the logger (resolving, lower-cased,
to severity `lvl`), one call `log(A, msg)` increments the top tier's per-alias
counter for `A` by exactly 1 and the top tier's per-severity-bucket counter at
`A`'s bucket key by exactly 1, unconditionally — whatever the limits, the
prior counts (emitted or suppressed outcome) and the `force` flag. -/
theorem c1_log_counts_alias (s : PdsLogger) (t : Tier) (rest : List Tier)
    (A msg fp : String) (force : Bool) (lvl : Nat)
    (hs : s.tiers = t :: rest)
    (hlvl : alookup s.levelByName (strLower A) = some lvl)
    (hnm : strLower A ≠ "") :
    ∃ t' recs, log s (.name A) msg fp force = some ({ s with tiers := t' :: rest }, recs) ∧
      aget t'.counts (strLower A) 0 = aget t.counts (strLower A) 0 + 1 ∧
      aget t'.countsByLevel (levelKey t.countsByLevel lvl) 0 =
        aget t.countsByLevel (levelKey t.countsByLevel lvl) 0 + 1 := by
  simp only [log, hlvl, logCore, hs, if_neg hnm]
  by_cases hc : aget t.limits (strLower A) (-1) < 0 ∨
      (((aget (bump t.counts (strLower A)) (strLower A) 0 : Nat) : Int) ≤
        aget t.limits (strLower A) (-1)) ∨ force = true
  · rw [if_pos hc]
    exact ⟨_, _, rfl, aget_bump_self _ _, aget_bump_self _ _⟩
  · rw [if_neg hc]
    exact ⟨_, _, rfl, aget_bump_self _ _, aget_bump_self _ _⟩

def w1tier : Tier :=
  { emptyTier with
    title := "pds.demo",
    limits := [("info", 5)],
    counts := [("info", 2)],
    countsByLevel := [(20, 2)] }

def w1logger : PdsLogger :=
  { levelByName := defaultLevelByName, levelNames := defaultLevelNames,
    tiers := [w1tier], handlers := [], minLevel := 2, maxdepth := 6,
    timestamps := true, blanklines := true }

theorem c1_log_counts_alias_witness :
    ∃ t' recs, log w1logger (.name "INFO") "hello" "" false =
        some ({ w1logger with tiers := t' :: [] }, recs) ∧
      aget t'.counts (strLower "INFO") 0 = aget w1tier.counts (strLower "INFO") 0 + 1 ∧
      aget t'.countsByLevel (levelKey w1tier.countsByLevel 20) 0 =
        aget w1tier.countsByLevel (levelKey w1tier.countsByLevel 20) 0 + 1 :=
  c1_log_counts_alias w1logger w1tier [] "INFO" "hello" "" false 20 rfl (by decide) (by decide)

/-! ## Claim C6 -/

/-- C6: when the current depth has reached the configured maximum, `open`
raises the depth error (`ValueError`) and returns the tier stack — titles,
start times, limit maps, counters and local handler lists — exactly as it
was: the state component of the result is the input state itself.  (The
HEADER record had already been handed to the emission stage, which mutates
nothing.) -/
theorem c6_open_at_maxdepth (s : PdsLogger) (title fp : String) (L : AList String Int)
    (H : List Nat) (force : Bool) (now : Nat) (hl : Nat)
    (hh : alookup s.levelByName "header" = some hl)
    (hd : getDepth s ≥ (s.maxdepth : Int)) :
    openTier s title fp L H force now =
      ([{ level := hl,
          text := .formatted (.name "HEADER")
            (if fp ≠ "" then title ++ ": " ++ fp else title) "",
          force := force }], s, some .valueError) := by
  simp only [openTier, hh, if_pos hd]

def w6logger : PdsLogger :=
  { levelByName := defaultLevelByName, levelNames := defaultLevelNames,
    tiers := [emptyTier], handlers := [], minLevel := 2, maxdepth := 0,
    timestamps := true, blanklines := true }

theorem c6_open_at_maxdepth_witness :
    openTier w6logger "t" "" [] [] false 0 =
      ([{ level := 20, text := .formatted (.name "HEADER") "t" "", force := false }],
        w6logger, some .valueError) :=
  c6_open_at_maxdepth w6logger "t" "" [] [] false 0 20 (by decide) (by decide)

/-! ## Claim C7 -/

def c7logger : PdsLogger := mkLogger "demo7" "pds." [] [] true true 6 2 0

/-- C7 counterexample: on a fresh logger, `open` succeeds but the tier that
was on top when `open` was called (now at stack index 1) still has an empty
per-alias counter map: its `'header'` counter is 0, not 1 — the HEADER record
never went through the counting engine. -/
theorem c7_counterexample :
    (openTier c7logger "t" "" [] [] false 0).2.2 = none ∧
    aget ((openTier c7logger "t" "" [] [] false 0).2.1.tiers.getD 1 emptyTier).counts
      "header" 0 = 0 ∧
    aget ((openTier c7logger "t" "" [] [] false 0).2.1.tiers.getD 1 emptyTier).countsByLevel
      20 0 = 0 := by decide

/-- C7 amended: `open` emits its HEADER record by handing it directly to the
emission stage, before the new tier is pushed, bypassing the counting and
suppression engine: the previous top tier reappears unchanged below the new
tier (no counter incremented), the new tier starts with empty counters, and
the record is handed over unconditionally — no limit (in particular not the
`'header'` limit, on which nothing here depends) can suppress it. -/
theorem c7_open_header_bypasses_counting (s : PdsLogger) (t : Tier) (rest : List Tier)
    (title : String) (L : AList String Int) (H : List Nat) (force : Bool) (now : Nat)
    (hl : Nat)
    (hs : s.tiers = t :: rest)
    (hh : alookup s.levelByName "header" = some hl)
    (hd : getDepth s < (s.maxdepth : Int)) :
    ∃ nt gl, openTier s title "" L H force now =
        ([{ level := hl, text := .formatted (.name "HEADER") title "", force := force }],
          { s with tiers := nt :: t :: rest, handlers := gl }, none) ∧
      nt.counts = [] ∧ nt.countsByLevel = [] := by
  have hd' : ¬(getDepth s ≥ (s.maxdepth : Int)) := by omega
  simp only [openTier, hh, if_neg hd', hs]
  exact ⟨_, _, rfl, rfl, rfl⟩

def w7tier : Tier := { emptyTier with title := "pds.demo", limits := [("header", 0)] }

def w7logger : PdsLogger :=
  { levelByName := defaultLevelByName, levelNames := defaultLevelNames,
    tiers := [w7tier], handlers := [], minLevel := 2, maxdepth := 6,
    timestamps := true, blanklines := true }

theorem c7_open_header_bypasses_counting_witness :
    ∃ nt gl, openTier w7logger "t" "" [] [] false 0 =
        ([{ level := 20, text := .formatted (.name "HEADER") "t" "", force := false }],
          { w7logger with tiers := nt :: w7tier :: [], handlers := gl }, none) ∧
      nt.counts = [] ∧ nt.countsByLevel = [] :=
  c7_open_header_bypasses_counting w7logger w7tier [] "t" [] [] false 0 20
    rfl (by decide) (by decide)

/-! ## Claim C8 -/

def c8logger : PdsLogger := mkLogger "demo8" "pds." [] [] true true 6 51 0

/-- C8 counterexample: a logger may be configured with a minimum level above
`FATAL` (here 51); a forced record that passed the limit stage is then still
rejected by `_logger_log`'s severity gate, because `force` only elevates the
record's level to `FATAL` = 50. -/
theorem c8_counterexample :
    c8logger.minLevel = 51 ∧
    (log c8logger (.name "info") "hello" "" true).map Prod.snd =
      some [{ level := 20, text := .formatted (.name "info") "hello" "", force := true }] ∧
    passes_min_level c8logger.minLevel 20 true = false := by decide

/-- C8 amended: for a record with `force = true`, `_logger_log` replaces the
record's severity with `FATAL` (50) before comparing with the logger's own
minimum severity, so force overrides every threshold up to and including
`FATAL`, and no threshold above `FATAL`. -/
theorem c8_force_gate (minLevel level : Nat) :
    passes_min_level minLevel level true = true ↔ minLevel ≤ FATAL := by
  simp [passes_min_level, FATAL]

/-! ## Claim C10 -/

/-- C10: logging by numeric level 30 counts under the upper-case display name
`"WARNING"` (the `_level_names` entry), which is a different dictionary key
from the lower-case `"warning"`: the `"warning"` counter is untouched.
`set_limit` always stores under the lower-cased name, so (as long as every
limits key is lower-case, as `set_limit` guarantees) the limit lookup for the
numeric call misses and falls back to -1, and the record is always emitted. -/
theorem c10_numeric_level_keys (s : PdsLogger) (t : Tier) (rest : List Tier)
    (msg fp : String) (force : Bool)
    (hs : s.tiers = t :: rest)
    (hname : alookup s.levelNames 30 = some "WARNING")
    (hkeys : ∀ p ∈ t.limits, strLower p.1 = p.1) :
    aget t.limits "WARNING" (-1) = -1 ∧
    (∀ lim, set_limit s "WARNING" lim =
      some { s with tiers := { t with limits := aset t.limits "warning" lim } :: rest }) ∧
    ∃ t', log s (.num 30) msg fp force =
        some ({ s with tiers := t' :: rest },
          [{ level := 30, text := .formatted (.name "WARNING") msg fp, force := force }]) ∧
      aget t'.counts "WARNING" 0 = aget t.counts "WARNING" 0 + 1 ∧
      aget t'.counts "warning" 0 = aget t.counts "warning" 0 := by
  have hW : ("WARNING" : String) ≠ "" := by decide
  have hnone : alookup t.limits "WARNING" = none := by
    cases hv : alookup t.limits "WARNING" with
    | none => rfl
    | some v =>
        obtain ⟨p, hp, hpk⟩ := mem_of_alookup_some _ _ _ hv
        have hlow := hkeys p hp
        rw [hpk] at hlow
        exact absurd hlow (by decide)
  have hlim : aget t.limits "WARNING" (-1) = -1 := by simp [aget, hnone]
  refine ⟨hlim, ?_, ?_⟩
  · intro lim
    have htl : strLower "WARNING" = "warning" := by decide
    simp only [set_limit, hs, htl]
  · simp only [log, hname, Option.getD_some, logCore, hs, if_neg hW]
    rw [if_pos (Or.inl (show aget t.limits "WARNING" (-1) < 0 by rw [hlim]; norm_num))]
    exact ⟨_, rfl, aget_bump_self _ _, aget_bump_ne _ _ _ (by decide)⟩

def w10tier : Tier :=
  { emptyTier with
    title := "pds.demo",
    limits := [("warning", 2)],
    counts := [("warning", 7)] }

def w10logger : PdsLogger :=
  { levelByName := defaultLevelByName, levelNames := defaultLevelNames,
    tiers := [w10tier], handlers := [], minLevel := 2, maxdepth := 6,
    timestamps := true, blanklines := true }

theorem c10_numeric_level_keys_witness :
    aget w10tier.limits "WARNING" (-1) = -1 ∧
    (∀ lim, set_limit w10logger "WARNING" lim =
      some { w10logger with
        tiers := { w10tier with limits := aset w10tier.limits "warning" lim } :: [] }) ∧
    ∃ t', log w10logger (.num 30) "m" "" false =
        some ({ w10logger with tiers := t' :: [] },
          [{ level := 30, text := .formatted (.name "WARNING") "m" "", force := false }]) ∧
      aget t'.counts "WARNING" 0 = aget w10tier.counts "WARNING" 0 + 1 ∧
      aget t'.counts "warning" 0 = aget w10tier.counts "warning" 0 :=
  c10_numeric_level_keys w10logger w10tier [] "m" "" false rfl (by decide) (by decide)

/-! ## Claim C2 -/

/-- C2 (amended: a forced call is emitted even when the limit is exactly 0):
a run of `log` calls on a fresh tier for an alias with limit `N` behaves,
call by call, as `callOut` of the call index and the suppressed count so far.
Reading `callOut`/`emitsAt` off for the claim's cases: with `N = -1` (indeed
any `N < 0`) every call is emitted; with `N > 0` call `i` (0-based) is
emitted iff `i + 1 ≤ N` or it is forced, every later unforced call is
suppressed (counted in the suppressed counter, nothing emitted), and the one
suppression notice is handed over exactly at the call where the suppressed
count goes 0 → 1; with `N = 0` every unforced call is suppressed and the
notice never appears (`callOut` requires `N ≠ 0`), while a forced call is
emitted.  The alias counter always ends at the number of calls. -/
theorem c2_limit_behavior (s : PdsLogger) (t : Tier) (rest : List Tier) (nm msg : String)
    (lvl : Nat) (N : Int) (forces : List Bool)
    (hs : s.tiers = t :: rest) (hnm : nm ≠ "") (hlow : strLower nm = nm)
    (hlvl : alookup s.levelByName nm = some lvl)
    (hlim : aget t.limits nm (-1) = N)
    (hc : aget t.counts nm 0 = 0) (hsup : aget t.suppressed nm 0 = 0) :
    ∃ s' t' outs,
      logMany (.name nm) msg s forces = some (s', outs) ∧
      s'.tiers = t' :: rest ∧
      aget t'.counts nm 0 = forces.length ∧
      aget t'.suppressed nm 0 = nSupp N 0 forces ∧
      outs = (List.range forces.length).map (fun i =>
        callOut s.levelNames nm lvl msg N i (nSupp N 0 (forces.take i))
          (forces.getD i false)) := by
  obtain ⟨s', t', outs, h1, h2, _, h4, h5, h6⟩ :=
    logMany_spec nm lvl msg N forces s t rest 0 0 hs hnm hlow hlvl hlim hc hsup
  exact ⟨s', t', outs, h1, h2, by simpa using h4, by simpa using h5, by simpa using h6⟩

def c2logger : PdsLogger := mkLogger "demo2" "pds." [] [("info", 0)] true true 6 2 0

/-- C2 counterexample to the claim as stated: with the limit for `info` set
to 0, a call with `force = true` is emitted (the message record is handed to
the emission stage), where the claim says every call at limit 0 is
suppressed. -/
theorem c2_counterexample :
    aget ((c2logger.tiers.getD 0 emptyTier).limits) "info" (-1) = 0 ∧
    (log c2logger (.name "info") "m" "" true).map Prod.snd =
      some [{ level := 20, text := .formatted (.name "info") "m" "", force := true }] := by
  decide

def w2tier : Tier := { emptyTier with title := "pds.demo", limits := [("info", 1)] }

def w2logger : PdsLogger :=
  { levelByName := defaultLevelByName, levelNames := defaultLevelNames,
    tiers := [w2tier], handlers := [], minLevel := 2, maxdepth := 6,
    timestamps := true, blanklines := true }

theorem c2_limit_behavior_witness :
    ∃ s' t' outs,
      logMany (.name "info") "m" w2logger [false, false, false] = some (s', outs) ∧
      s'.tiers = t' :: [] ∧
      aget t'.counts "info" 0 = [false, false, false].length ∧
      aget t'.suppressed "info" 0 = nSupp 1 0 [false, false, false] ∧
      outs = (List.range [false, false, false].length).map (fun i =>
        callOut w2logger.levelNames "info" 20 "m" 1 i
          (nSupp 1 0 ([false, false, false].take i))
          ([false, false, false].getD i false)) :=
  c2_limit_behavior w2logger w2tier [] "info" "m" 20 1 [false, false, false]
    rfl (by decide) (by decide) (by decide) (by decide) (by decide) (by decide)

/-! ## Claim C3 -/

/-- C3: the limits map of the tier pushed by `open(title, limits=L)`: an
alias named in `L` gets exactly `L`'s limit; any other alias with inherited
limit `≥ 0` gets `max 0 (inherited - parent's consumed count)`; any other
alias with inherited limit -1 (unlimited, i.e. absent or explicitly -1)
stays at -1. -/
theorem c3_open_limit_inheritance (s : PdsLogger) (t : Tier) (rest : List Tier)
    (hl : Nat) (title : String) (L : AList String Int) (H : List Nat) (force : Bool)
    (now : Nat)
    (hs : s.tiers = t :: rest)
    (hh : alookup s.levelByName "header" = some hl)
    (hd : getDepth s < (s.maxdepth : Int))
    (hnd : (L.map Prod.fst).Nodup) :
    ∃ nt gl recs, openTier s title "" L H force now =
        (recs, { s with tiers := nt :: t :: rest, handlers := gl }, none) ∧
      (∀ A v, alookup L A = some v → alookup nt.limits A = some v) ∧
      (∀ A, alookup L A = none →
        (aget t.limits A (-1) ≥ 0 →
          aget nt.limits A (-1) =
            max 0 (aget t.limits A (-1) - ((aget t.counts A 0 : Nat) : Int))) ∧
        (aget t.limits A (-1) = -1 → aget nt.limits A (-1) = -1)) := by
  have hd' : ¬(getDepth s ≥ (s.maxdepth : Int)) := by omega
  simp only [openTier, hh, if_neg hd', hs]
  refine ⟨_, _, _, rfl, ?_, ?_⟩
  · intro A v hA
    dsimp only
    rw [alookup_map_keyed]
    rw [alookup_foldl_aset_of_some L t.limits A v hnd hA]
    have hcA : acontains L A = true := by simp [acontains, hA]
    simp [shrinkLimit, hcA]
  · intro A hA
    have hnot : ∀ q ∈ L, q.1 ≠ A := not_mem_of_alookup_none L A hA
    have hcA : acontains L A = false := by simp [acontains, hA]
    have hmerged : alookup (L.foldl (fun acc q => aset acc q.1 q.2) t.limits) A =
        alookup t.limits A := alookup_foldl_aset_of_none L t.limits A hnot
    constructor
    · intro hge
      cases hv : alookup t.limits A with
      | none => simp [aget, hv] at hge
      | some l =>
          have hgl : l ≥ 0 := by simpa [aget, hv] using hge
          dsimp only
          unfold aget
          rw [alookup_map_keyed, hmerged, hv]
          simp only [Option.map_some', Option.getD_some]
          unfold shrinkLimit
          rw [if_pos (⟨hcA, hgl⟩ : acontains L A = false ∧ l ≥ 0)]
          rfl
    · intro hm1
      cases hv : alookup t.limits A with
      | none =>
          dsimp only
          unfold aget
          rw [alookup_map_keyed, hmerged, hv]
          rfl
      | some l =>
          have hl1 : l = -1 := by simpa [aget, hv] using hm1
          dsimp only
          unfold aget
          rw [alookup_map_keyed, hmerged, hv]
          simp only [Option.map_some', Option.getD_some]
          unfold shrinkLimit
          rw [hl1, if_neg (by norm_num)]

def w3tier : Tier :=
  { emptyTier with
    title := "pds.demo",
    limits := [("info", 5), ("warning", -1), ("debug", 4)],
    counts := [("info", 2), ("debug", 9)] }

def w3logger : PdsLogger :=
  { levelByName := defaultLevelByName, levelNames := defaultLevelNames,
    tiers := [w3tier], handlers := [], minLevel := 2, maxdepth := 6,
    timestamps := true, blanklines := true }

theorem c3_open_limit_inheritance_witness :
    ∃ nt gl recs, openTier w3logger "sub" "" [("info", (7 : Int))] [] false 0 =
        (recs, { w3logger with tiers := nt :: w3tier :: [], handlers := gl }, none) ∧
      (∀ A v, alookup [("info", (7 : Int))] A = some v → alookup nt.limits A = some v) ∧
      (∀ A, alookup [("info", (7 : Int))] A = none →
        (aget w3tier.limits A (-1) ≥ 0 →
          aget nt.limits A (-1) =
            max 0 (aget w3tier.limits A (-1) - ((aget w3tier.counts A 0 : Nat) : Int))) ∧
        (aget w3tier.limits A (-1) = -1 → aget nt.limits A (-1) = -1)) :=
  c3_open_limit_inheritance w3logger w3tier [] 20 "sub" [("info", 7)] [] false 0
    rfl (by decide) (by decide) (by decide)

/-! ## Claim C4 -/

/-- C4 (amended: suppressed totals are only folded at keys present in the
closed tier's counts maps — always the case per-alias, but a per-severity
suppressed entry recorded under a raw severity that is not a key of the
counts-by-level map, possible for an alias severity that is not a multiple of
10, is dropped): `close` replaces the parent with `transferTier`, whose
counters are the pointwise sums shown, and returns the 4-tuple computed by
`summarize` from the closed tier's own counters only, with the buckets
severity `≥ FATAL`, `[ERROR, FATAL)`, `[WARNING, ERROR)` and total counting
every entry. -/
theorem close_shape (s : PdsLogger) (t p : Tier) (rs : List Tier) (hl now : Nat)
    (hs : s.tiers = t :: p :: rs)
    (hh : alookup s.levelByName "header" = some hl) :
    ∃ recs, close s now = some ({ s with
        tiers := transferTier t p :: rs,
        handlers := s.handlers.filter fun h => !(t.localHandlers.contains h) },
      recs, summarizeCounts t.countsByLevel) := by
  simp only [close, hs, hh]
  exact ⟨_, rfl⟩

theorem c4_close_merge (s : PdsLogger) (t p : Tier) (rs : List Tier) (hl now : Nat)
    (hs : s.tiers = t :: p :: rs)
    (hh : alookup s.levelByName "header" = some hl)
    (hnd1 : (t.counts.map Prod.fst).Nodup)
    (hnd2 : (t.countsByLevel.map Prod.fst).Nodup) :
    ∃ recs, close s now = some ({ s with
        tiers := transferTier t p :: rs,
        handlers := s.handlers.filter fun h => !(t.localHandlers.contains h) },
      recs, summarizeCounts t.countsByLevel) ∧
      (∀ nm, aget (transferTier t p).counts nm 0 =
        aget p.counts nm 0 + aget t.counts nm 0) ∧
      (∀ nm, aget (transferTier t p).suppressed nm 0 =
        aget p.suppressed nm 0 +
          (if acontains t.counts nm then aget t.suppressed nm 0 else 0)) ∧
      (∀ lv, aget (transferTier t p).countsByLevel lv 0 =
        aget p.countsByLevel lv 0 + aget t.countsByLevel lv 0) ∧
      (∀ lv, aget (transferTier t p).suppressedByLevel lv 0 =
        aget p.suppressedByLevel lv 0 +
          (if acontains t.countsByLevel lv then aget t.suppressedByLevel lv 0 else 0)) ∧
      summarizeCounts t.countsByLevel =
        (weightSum t.countsByLevel (fun l => decide (l ≥ FATAL)),
         weightSum t.countsByLevel (fun l => decide (l ≥ ERROR) && decide (l < FATAL)),
         weightSum t.countsByLevel (fun l => decide (l ≥ WARNING) && decide (l < ERROR)),
         weightSum t.countsByLevel (fun _ => true)) := by
  obtain ⟨recs, hcl⟩ := close_shape s t p rs hl now hs hh
  refine ⟨recs, hcl, ?_, ?_, ?_, ?_, summarizeCounts_buckets _⟩
  · exact fun nm => mergePair_fst t.suppressed t.counts p.counts p.suppressed hnd1 nm
  · exact fun nm => mergePair_snd t.suppressed t.counts p.counts p.suppressed hnd1 nm
  · exact fun lv =>
      mergePair_fst t.suppressedByLevel t.countsByLevel p.countsByLevel
        p.suppressedByLevel hnd2 lv
  · exact fun lv =>
      mergePair_snd t.suppressedByLevel t.countsByLevel p.countsByLevel
        p.suppressedByLevel hnd2 lv

def c4logger : PdsLogger := mkLogger "demo4" "pds." [("odd", 23)] [("odd", 0)] true true 6 2 0

def c4opened : PdsLogger := (openTier c4logger "sub" "" [] [] false 0).2.1

def c4logged : Option PdsLogger := (log c4opened (.name "odd") "m" "" false).map Prod.fst

def c4closed : Option PdsLogger := c4logged.bind fun s => (close s 0).map Prod.fst

/-- C4 counterexample to the claim as stated: with a custom alias `odd` of
severity 23 (not a multiple of 10) and limit 0, one suppressed `log('odd')`
in a child tier leaves the child with suppressed-by-severity total 1 at
severity 23, but after `close` the parent's suppressed-by-severity counter
at 23 is 0: that suppressed total was not added onto the parent (the
transfer loop only visits severities that are keys of the child's
counts-by-level map, here only the bucket 20). -/
theorem c4_counterexample :
    c4logged.map (fun s => aget (s.tiers.getD 0 emptyTier).suppressedByLevel 23 0) =
      some 1 ∧
    c4closed.map (fun s => aget (s.tiers.getD 0 emptyTier).suppressedByLevel 23 0) =
      some 0 := by decide

def w4child : Tier :=
  { emptyTier with
    title := "sub",
    limits := [("info", 5)],
    counts := [("info", 3)],
    suppressed := [("info", 1)],
    countsByLevel := [(20, 3)],
    suppressedByLevel := [(20, 1)] }

def w4parent : Tier :=
  { emptyTier with
    title := "pds.demo",
    counts := [("info", 2)],
    countsByLevel := [(20, 2)] }

def w4logger : PdsLogger :=
  { levelByName := defaultLevelByName, levelNames := defaultLevelNames,
    tiers := [w4child, w4parent], handlers := [], minLevel := 2, maxdepth := 6,
    timestamps := true, blanklines := true }

theorem c4_close_merge_witness :
    ∃ recs, close w4logger 0 = some ({ w4logger with
        tiers := transferTier w4child w4parent :: [],
        handlers := w4logger.handlers.filter fun h => !(w4child.localHandlers.contains h) },
      recs, summarizeCounts w4child.countsByLevel) ∧
      (∀ nm, aget (transferTier w4child w4parent).counts nm 0 =
        aget w4parent.counts nm 0 + aget w4child.counts nm 0) ∧
      (∀ nm, aget (transferTier w4child w4parent).suppressed nm 0 =
        aget w4parent.suppressed nm 0 +
          (if acontains w4child.counts nm then aget w4child.suppressed nm 0 else 0)) ∧
      (∀ lv, aget (transferTier w4child w4parent).countsByLevel lv 0 =
        aget w4parent.countsByLevel lv 0 + aget w4child.countsByLevel lv 0) ∧
      (∀ lv, aget (transferTier w4child w4parent).suppressedByLevel lv 0 =
        aget w4parent.suppressedByLevel lv 0 +
          (if acontains w4child.countsByLevel lv then
            aget w4child.suppressedByLevel lv 0 else 0)) ∧
      summarizeCounts w4child.countsByLevel =
        (weightSum w4child.countsByLevel (fun l => decide (l ≥ FATAL)),
         weightSum w4child.countsByLevel (fun l => decide (l ≥ ERROR) && decide (l < FATAL)),
         weightSum w4child.countsByLevel (fun l => decide (l ≥ WARNING) && decide (l < ERROR)),
         weightSum w4child.countsByLevel (fun _ => true)) :=
  c4_close_merge w4logger w4child w4parent [] 20 0 rfl (by decide) (by decide) (by decide)

/-! ## Claim C5 -/

def c5logger : PdsLogger := mkLogger "demo5" "pds." [] [] true true 6 2 0

/-- C5 counterexample to the claim as stated: on a fresh logger (stack =
just the root tier, depth 0), a single `close()` call succeeds and pops the
root: the resulting tier stack is empty, size 0 < 1. -/
theorem c5_counterexample :
    c5logger.tiers.length = 1 ∧
    (close c5logger 0).map (fun r => r.1.tiers.length) = some 0 := by decide

/-- C5 amended: the stack never shrinks below the root as long as `close` is
only invoked while at least one tier is open above the root (`safeOps`);
`close` at depth 0 itself succeeds and pops the root, leaving an empty
stack (see the counterexample). -/
theorem c5_stack_lower_bound (ops : List Op) :
    ∀ s : PdsLogger, 1 ≤ s.tiers.length → safeOps s ops = true →
    1 ≤ (runOps s ops).tiers.length := by
  induction ops with
  | nil =>
      intro s h1 _
      simpa [runOps] using h1
  | cons op rest ih =>
      intro s h1 hsafe
      simp only [safeOps, Bool.and_eq_true] at hsafe
      obtain ⟨hop, hrest⟩ := hsafe
      have hstep : 1 ≤ (runOp s op).tiers.length := by
        cases op with
        | openOp title limits =>
            have hlen := openTier_length s title "" limits [] false 0
            show 1 ≤ ((openTier s title "" limits [] false 0).2.1).tiers.length
            omega
        | closeOp =>
            have h2 : 2 ≤ s.tiers.length := of_decide_eq_true hop
            show 1 ≤ (runOp s .closeOp).tiers.length
            simp only [runOp]
            cases hc : close s 0 with
            | none => exact h1
            | some r =>
                obtain ⟨s', recs, ret⟩ := r
                have hlen := close_length s 0 s' recs ret hc
                show 1 ≤ s'.tiers.length
                omega
        | logOp arg msg f =>
            show 1 ≤ (runOp s (.logOp arg msg f)).tiers.length
            simp only [runOp]
            cases hc : log s arg msg "" f with
            | none => exact h1
            | some r =>
                obtain ⟨s', recs⟩ := r
                have hlen := log_length s arg msg "" f s' recs hc
                show 1 ≤ s'.tiers.length
                omega
      have hfold : runOps s (op :: rest) = runOps (runOp s op) rest := by
        simp [runOps]
      rw [hfold]
      exact ih (runOp s op) hstep hrest

theorem c5_stack_lower_bound_witness :
    1 ≤ (runOps c5logger [.openOp "a" [], .closeOp]).tiers.length :=
  c5_stack_lower_bound [.openOp "a" [], .closeOp] c5logger (by decide) (by decide)

/-! ## Claim C9 -/

/-- C9: `_logged_level` on a numeric severity that has a (non-empty) name in
the logger's `_level_names` renders that name upper-cased; on any other
severity with some default standard severity strictly below it, it renders
`"<nearest-lower-default-name>+<delta>"`, the delta being the (smallest
positive) difference to the largest default severity below.  (Severity 23
with the default table gives `"INFO+3"` — see the witness.) -/
theorem c9_display_name (levelNames : AList Nat String) (S : Nat) :
    (∀ nm, (alookup levelNames S).getD "" = nm → nm ≠ "" →
      logged_level levelNames (.num S) = some (strUpper nm)) ∧
    ((alookup levelNames S).getD "" = "" → 1 < S →
      logged_level levelNames (.num S) =
        some ((alookup defaultLevelNames (nearestLowerDefault S)).getD "" ++ "+" ++
          toString ((S : Int) - ((nearestLowerDefault S : Nat) : Int)))) := by
  constructor
  · intro nm hnm hne
    simp only [logged_level, hnm, ne_eq, if_pos hne]
  · intro h1 h2
    exact logged_level_fallback levelNames S h1 h2

theorem c9_display_name_witness :
    logged_level defaultLevelNames (.num 23) =
      some ((alookup defaultLevelNames (nearestLowerDefault 23)).getD "" ++ "+" ++
        toString ((23 : Int) - ((nearestLowerDefault 23 : Nat) : Int))) ∧
    logged_level defaultLevelNames (.num 23) = some "INFO+3" ∧
    logged_level defaultLevelNames (.num 30) = some (strUpper "WARNING") := by
  have h := (c9_display_name defaultLevelNames 23).2 (by decide) (by decide)
  refine ⟨h, ?_, ?_⟩
  · rw [h]; decide
  · exact (c9_display_name defaultLevelNames 30).1 "WARNING" (by decide) (by decide)

end PdsLog
